import Mathlib

/-!
Verification of the balance-ledger engine of the Udhari-Kitap backend.

The definitions below are a shallow embedding of the JavaScript sources:
* `src/services/balanceCalculation.js` — per-expense contributions, the
  aggregate balance (`calculateOverallBalance`) and the pairwise balance
  (`calculatePairwiseBalance`);
* `src/services/expenseValidation.js` — share-sum and participant checks
  (`validateSharesSum`, `validateExpenseCreation`);
* `src/services/transactionValidation.js` — settlement checks
  (`validateTransactionCreation`);
* `src/models/expense.js` / `src/models/transaction.js` — the schema-level
  constraints (at least one participant; settlement amount ≥ 1 and
  distinct endpoints);
* `src/controllers/expenseController.js` — soft-delete and restore.

User ids are modelled as `Nat`; all monetary amounts are integers in minor
units (paise), as in the source.  JavaScript `Map` accumulators become
insertion-ordered association lists.  The presentation-only detail arrays
(per-expense breakdown strings, rupee conversions) are not part of the
embedding; every monetary field of the returned objects is.
-/

namespace UdhariKitap

/-- One entry of an expense's `participants` array: a user id and that
user's share in paise (`participantSchema` in `models/expense.js`). -/
structure Participant where
  user : Nat
  share : Int
deriving DecidableEq, Repr

/-- An expense document: total `amount` in paise, `payer`, the participant
shares, and the soft-delete state (`expenseSchema` in `models/expense.js`).
`deletedAt` is an abstract timestamp. -/
structure Expense where
  amount : Int
  payer : Nat
  participants : List Participant
  isDeleted : Bool
  deletedBy : Option Nat
  deletedAt : Option Nat
  deletedReason : Option String
deriving DecidableEq, Repr

/-- A settlement document (`transactionSchema` in `models/transaction.js`):
`tfrom` pays `tto` the given `amount` in paise.  The source field names are
`from` and `to`; `from` is a reserved word here. -/
structure Transaction where
  tfrom : Nat
  tto : Nat
  amount : Int
deriving DecidableEq, Repr

/-- The stored records a balance computation reads: the expense collection
and the transaction (settlement) collection. -/
structure RecordSet where
  expenses : List Expense
  transactions : List Transaction
deriving Repr

/-- `expense.participants.find(p => p.user === userId)` — the first
participant entry for `userId`, if any. -/
def findParticipant (expense : Expense) (userId : Nat) : Option Participant :=
  expense.participants.find? (fun p => p.user == userId)

/-- `userParticipant ? userParticipant.share : 0` — the share of `userId`
in `expense`, taking 0 when `userId` is not listed. -/
def shareOf (expense : Expense) (userId : Nat) : Int :=
  match findParticipant expense userId with
  | some p => p.share
  | none => 0

/-- `calculateOwedFromExpense` (balanceCalculation.js, lines 26–49): what
`userId` is owed from `expense` — 0 unless `userId` is the payer, otherwise
the total amount minus the payer's own share. -/
def calculateOwedFromExpense (expense : Expense) (userId : Nat) : Int :=
  if expense.payer ≠ userId then 0
  else expense.amount - shareOf expense userId

/-- `calculateOwingFromExpense` (balanceCalculation.js, lines 57–74): what
`userId` owes from `expense` — 0 if `userId` is the payer, otherwise
`userId`'s share (0 when not a participant). -/
def calculateOwingFromExpense (expense : Expense) (userId : Nat) : Int :=
  if expense.payer = userId then 0
  else shareOf expense userId

/-- `calculatePairwiseBalanceFromExpense` (balanceCalculation.js, lines
86–115): the signed contribution of one expense to the balance of
`currentUserId` relative to `otherUserId`. -/
def calculatePairwiseBalanceFromExpense (expense : Expense)
    (currentUserId otherUserId : Nat) : Int :=
  if expense.payer = currentUserId then
    match findParticipant expense otherUserId with
    | some p => p.share
    | none => 0
  else if expense.payer = otherUserId then
    match findParticipant expense currentUserId with
    | some p => -p.share
    | none => 0
  else 0

/-- `participants.some(p => p.user === userId)` — the Mongo query clause
`'participants.user': userId`. -/
def isParticipant (expense : Expense) (userId : Nat) : Bool :=
  expense.participants.any (fun p => p.user == userId)

/-- `getExpensesInvolvingUser` (balanceCalculation.js, lines 122–138): all
non-deleted expenses where `userId` is payer or participant. -/
def getExpensesInvolvingUser (expenses : List Expense) (userId : Nat) :
    List Expense :=
  expenses.filter (fun e =>
    !e.isDeleted && (e.payer == userId || isParticipant e userId))

/-- The expense query of `calculatePairwiseBalance` (lines 296–313):
non-deleted expenses where one of the two users paid and the other is a
participant. -/
def getExpensesBetween (expenses : List Expense) (u v : Nat) : List Expense :=
  expenses.filter (fun e =>
    !e.isDeleted &&
      ((e.payer == u && isParticipant e v) ||
       (e.payer == v && isParticipant e u)))

/-- The transaction query of `calculateOverallBalance` (lines 212–217):
transactions where `userId` is sender or receiver. -/
def getTransactionsInvolving (ts : List Transaction) (userId : Nat) :
    List Transaction :=
  ts.filter (fun t => t.tfrom == userId || t.tto == userId)

/-- The transaction query of `calculatePairwiseBalance` (lines 337–342):
transactions between the two users, in either direction. -/
def getTransactionsBetween (ts : List Transaction) (u v : Nat) :
    List Transaction :=
  ts.filter (fun t =>
    (t.tfrom == u && t.tto == v) || (t.tfrom == v && t.tto == u))

/-- The JavaScript `Map` accumulator `perUserMap`, as an insertion-ordered
association list from counterparty id to running balance.  `mapAdd m k d`
is `map.get(k).balance += d` with the implicit `set(k, 0)` on a missing
key. -/
def mapAdd (m : List (Nat × Int)) (key : Nat) (delta : Int) :
    List (Nat × Int) :=
  match m with
  | [] => [(key, delta)]
  | (k, v) :: rest =>
      if k = key then (k, v + delta) :: rest
      else (k, v) :: mapAdd rest key delta

/-- The mutable state of `calculateOverallBalance`'s loops: the two running
totals and the per-counterparty map. -/
structure OverallState where
  totalOwed : Int
  totalOwing : Int
  perUserMap : List (Nat × Int)
deriving Repr

/-- One iteration of `calculateOverallBalance`'s expense loop (lines
156–209): add the owed/owing contributions and update the per-user map —
through every non-self participant when `userId` paid, through the payer
entry when `userId` is a participant of someone else's expense. -/
def applyExpenseOverall (userId : Nat) (st : OverallState) (expense : Expense) :
    OverallState :=
  let owed := calculateOwedFromExpense expense userId
  let owing := calculateOwingFromExpense expense userId
  let st' : OverallState :=
    { st with totalOwed := st.totalOwed + owed,
              totalOwing := st.totalOwing + owing }
  if expense.payer = userId then
    let m' := expense.participants.foldl
      (fun m p => if p.user = userId then m else mapAdd m p.user p.share)
      st'.perUserMap
    { st' with perUserMap := m' }
  else
    match findParticipant expense userId with
    | some p =>
        { st' with perUserMap := mapAdd st'.perUserMap expense.payer (-p.share) }
    | none => st'

/-- One iteration of `calculateOverallBalance`'s transaction loop (lines
222–254): money `userId` sent reduces `totalOwing` and credits the
receiver's entry; money received reduces `totalOwed` and debits the
sender's entry. -/
def applyTransactionOverall (userId : Nat) (st : OverallState)
    (t : Transaction) : OverallState :=
  if t.tfrom = userId then
    { st with totalOwing := st.totalOwing - t.amount,
              perUserMap := mapAdd st.perUserMap t.tto t.amount }
  else
    { st with totalOwed := st.totalOwed - t.amount,
              perUserMap := mapAdd st.perUserMap t.tfrom (-t.amount) }

/-- `balance > 0 ? 'owes_you' : balance < 0 ? 'you_owe' : 'settled'`. -/
def statusOf (balance : Int) : String :=
  if balance > 0 then "owes_you"
  else if balance < 0 then "you_owe"
  else "settled"

/-- Insertion step for the `sort((a, b) => b.balance - a.balance)` on the
per-user array: descending by balance. -/
def insertByBalanceDesc (x : Nat × Int) :
    List (Nat × Int) → List (Nat × Int)
  | [] => [x]
  | y :: ys =>
      if x.2 ≥ y.2 then x :: y :: ys else y :: insertByBalanceDesc x ys

/-- The descending-by-balance sort applied to the per-user array. -/
def sortByBalanceDesc (l : List (Nat × Int)) : List (Nat × Int) :=
  l.foldr insertByBalanceDesc []

/-- The object `calculateOverallBalance` returns (monetary fields only):
the totals, the net, the raw accumulated map, and the displayed per-user
array (non-zero entries, each paired with its status, sorted by balance
descending). -/
structure OverallBalance where
  totalOwed : Int
  totalOwing : Int
  netBalance : Int
  perUserMapAll : List (Nat × Int)
  perUser : List (Nat × Int × String)
deriving Repr

/-- `calculateOverallBalance` (balanceCalculation.js, lines 148–281):
fold the non-deleted expenses involving `userId`, then the transactions
involving `userId`, and package the result.  `perUserMapAll` is the map as
accumulated, before the zero-balance filter; `perUser` is the filtered and
sorted output array. -/
def calculateOverallBalance (records : RecordSet) (userId : Nat) :
    OverallBalance :=
  let expenses := getExpensesInvolvingUser records.expenses userId
  let st1 := expenses.foldl (applyExpenseOverall userId)
    ⟨0, 0, []⟩
  let ts := getTransactionsInvolving records.transactions userId
  let st2 := ts.foldl (applyTransactionOverall userId) st1
  { totalOwed := st2.totalOwed
    totalOwing := st2.totalOwing
    netBalance := st2.totalOwed - st2.totalOwing
    perUserMapAll := st2.perUserMap
    perUser :=
      (sortByBalanceDesc (st2.perUserMap.filter (fun e => e.2 ≠ 0))).map
        (fun e => (e.1, e.2, statusOf e.2)) }

/-- The object `calculatePairwiseBalance` returns (monetary fields only).
The per-expense and per-transaction detail arrays in the source are
display projections of the same filtered lists and carry no further
monetary state. -/
structure PairwiseBalance where
  balance : Int
  status : String
deriving Repr

/-- `calculatePairwiseBalance` (balanceCalculation.js, lines 291–386): sum
the per-expense pairwise contributions over the non-deleted expenses
between the two users, then shift by each transaction between them —
`+amount` when `currentUserId` sent it, `-amount` when received. -/
def calculatePairwiseBalance (records : RecordSet)
    (currentUserId otherUserId : Nat) : PairwiseBalance :=
  let expenses := getExpensesBetween records.expenses currentUserId otherUserId
  let expensePart := (expenses.map
    (fun e => calculatePairwiseBalanceFromExpense e currentUserId otherUserId)).sum
  let ts := getTransactionsBetween records.transactions currentUserId otherUserId
  let txPart := (ts.map
    (fun t => if t.tfrom = currentUserId then t.amount else -t.amount)).sum
  let totalBalance := expensePart + txPart
  { balance := totalBalance, status := statusOf totalBalance }

/-! ## Validators (expenseValidation.js and transactionValidation.js)

The user directory (`User.findById` / `User.find`) is modelled as the list
of existing user ids.  Each `errors.push({field, message})` of the source
becomes a `FieldError` whose `check` names the violated rule; the
free-text `message` carries no further decision-relevant data. -/

/-- One entry of a validator's `errors` array: the `field` it was pushed
with and the rule whose failure produced it. -/
structure FieldError where
  field : String
  check : String
deriving DecidableEq, Repr

/-- `validatePayerExists` (expenseValidation.js): the payer id resolves to
an existing user. -/
def validatePayerExists (users : List Nat) (payerId : Nat) : Bool :=
  users.contains payerId

/-- `validateNoDuplicateParticipants` (expenseValidation.js): valid when no
user id appears twice in the participants array (set-size comparison in
the source). -/
def validateNoDuplicateParticipants (participants : List Participant) : Bool :=
  (participants.map (fun p => p.user)).dedup.length =
    (participants.map (fun p => p.user)).length

/-- `validateParticipantsExist` (expenseValidation.js): the ids in the
participants array that do not resolve to existing users (the source's
`invalidIds`, computed over the deduplicated id list). -/
def invalidParticipantIds (users : List Nat) (participants : List Participant) :
    List Nat :=
  ((participants.map (fun p => p.user)).dedup).filter
    (fun id => !users.contains id)

/-- `validateParticipantsExist`'s verdict: valid when `invalidIds` is
empty. -/
def validateParticipantsExist (users : List Nat)
    (participants : List Participant) : Bool :=
  (invalidParticipantIds users participants).isEmpty

/-- `validatePositiveShares` (expenseValidation.js): valid when no
participant share is negative (`p.share < 0` filter empty). -/
def validatePositiveShares (participants : List Participant) : Bool :=
  (participants.filter (fun p => p.share < 0)).isEmpty

/-- The object `validateSharesSum` returns: the verdict, the computed sum
of shares and the absolute difference from the total (both reported back
to the caller on failure). -/
structure SharesSumResult where
  valid : Bool
  totalShares : Int
  difference : Int
deriving DecidableEq, Repr

/-- `validateSharesSum` (expenseValidation.js, lines 79–99): sum the
shares with `reduce`, take the absolute difference from the total amount,
and fail exactly when it exceeds the 1-paise rounding tolerance. -/
def validateSharesSum (totalAmount : Int) (participants : List Participant) :
    SharesSumResult :=
  let totalShares := participants.foldl (fun sum p => sum + p.share) 0
  let difference := |totalShares - totalAmount|
  if difference > 1 then
    { valid := false, totalShares := totalShares, difference := difference }
  else
    { valid := true, totalShares := totalShares, difference := difference }

/-- The object `validateExpenseCreation` returns. -/
structure ExpenseValidationResult where
  valid : Bool
  errors : List FieldError
deriving DecidableEq, Repr

/-- `validateExpenseCreation` (expenseValidation.js, lines 148–186): run
the five checks unconditionally, push one error per failed check in source
order, and succeed exactly when the collected error list is empty. -/
def validateExpenseCreation (users : List Nat) (amount : Int) (payer : Nat)
    (participants : List Participant) : ExpenseValidationResult :=
  let e1 := if validatePayerExists users payer then []
    else [FieldError.mk "payer" "PayerNotFound"]
  let e2 := if validateNoDuplicateParticipants participants then []
    else [FieldError.mk "participants" "DuplicateParticipant"]
  let e3 := if validateParticipantsExist users participants then []
    else [FieldError.mk "participants" "ParticipantNotFound"]
  let e4 := if validatePositiveShares participants then []
    else [FieldError.mk "participants" "NegativeShare"]
  let e5 := if (validateSharesSum amount participants).valid then []
    else [FieldError.mk "amount" "ShareSumMismatch"]
  let errors := e1 ++ e2 ++ e3 ++ e4 ++ e5
  { valid := errors.isEmpty, errors := errors }

/-- The `participants` validator of `expenseSchema` (models/expense.js,
lines 75–83): at least one participant is required at the storage layer. -/
def expenseSchemaParticipantsValid (participants : List Participant) : Bool :=
  !participants.isEmpty

/-- `validateDifferentUsers` (transactionValidation.js): valid when sender
and receiver differ. -/
def validateDifferentUsers (fromId toId : Nat) : Bool :=
  fromId ≠ toId

/-- `validatePositiveAmount` (transactionValidation.js): the source's
`!amount || amount <= 0` — for an integer amount, invalid exactly when the
amount is ≤ 0. -/
def validatePositiveAmount (amount : Int) : Bool :=
  amount > 0

/-- `validateUsersExist` (transactionValidation.js): both endpoints must
resolve to existing users. -/
def validateUsersExist (users : List Nat) (fromId toId : Nat) : Bool :=
  users.contains fromId && users.contains toId

/-- The object `validateTransactionCreation` returns. -/
structure TransactionValidationResult where
  valid : Bool
  errors : List FieldError
deriving DecidableEq, Repr

/-- `validateTransactionCreation` (transactionValidation.js, lines
84–112): run the three checks unconditionally, push one error per failed
check in source order, succeed exactly when no errors. -/
def validateTransactionCreation (users : List Nat) (tfrom tto : Nat)
    (amount : Int) : TransactionValidationResult :=
  let e1 := if validateDifferentUsers tfrom tto then []
    else [FieldError.mk "users" "SameUserSettlement"]
  let e2 := if validatePositiveAmount amount then []
    else [FieldError.mk "amount" "NonPositiveAmount"]
  let e3 := if validateUsersExist users tfrom tto then []
    else [FieldError.mk "users" "UserNotFound"]
  let errors := e1 ++ e2 ++ e3
  { valid := errors.isEmpty, errors := errors }

/-- The write-time schema constraints of `transactionSchema`
(models/transaction.js): `amount` has `min: 1` and the pre-save hook
rejects `from` equal to `to`; `save` fails otherwise. -/
def transactionSchemaValid (t : Transaction) : Bool :=
  t.amount ≥ 1 && t.tfrom ≠ t.tto

/-- `createTransaction` (transactionController.js, lines 19–50): validate,
return nothing (HTTP 400, nothing stored) on failure, otherwise build the
document and save it under the schema constraints.  The controller
validates the rupee figure and stores `rupeesToPaise` of it; for an amount
that is a whole number of paise the two have the same sign, so the
embedding works in paise throughout. -/
def createTransaction (users : List Nat) (tfrom tto : Nat) (amount : Int) :
    Option Transaction :=
  let validation := validateTransactionCreation users tfrom tto amount
  if !validation.valid then none
  else
    let t : Transaction := { tfrom := tfrom, tto := tto, amount := amount }
    if transactionSchemaValid t then some t else none

/-- The soft delete of `deleteExpense` (expenseController.js, lines
349–353): flip `isDeleted` and record the audit fields; the payload is
kept. -/
def deleteExpense (expense : Expense) (userId : Nat) (deletedAt : Nat)
    (reason : Option String) : Expense :=
  { expense with isDeleted := true, deletedBy := some userId,
                 deletedAt := some deletedAt, deletedReason := reason }

/-- `restoreExpense` (expenseController.js, lines 428–434): clear the
soft-delete flag and all audit fields. -/
def restoreExpense (expense : Expense) : Expense :=
  { expense with isDeleted := false, deletedBy := none,
                 deletedAt := none, deletedReason := none }

/-! ## Sample data

The worked scenario of the source documentation: user 0 (Alice) pays 300
paise split equally with users 1 (Bob) and 2 (Charlie); Bob then settles
100 paise to Alice. -/

/-- Alice pays 300, split equally three ways. -/
def sampleExpense : Expense :=
  { amount := 300, payer := 0,
    participants := [⟨0, 100⟩, ⟨1, 100⟩, ⟨2, 100⟩],
    isDeleted := false, deletedBy := none, deletedAt := none,
    deletedReason := none }

/-- Bob pays Alice 100 paise. -/
def sampleSettlement : Transaction :=
  { tfrom := 1, tto := 0, amount := 100 }

/-- The record set of the worked scenario. -/
def sampleRecords : RecordSet :=
  { expenses := [sampleExpense], transactions := [sampleSettlement] }

/-! ## Helper lemmas -/

/-- The `reduce`-style left fold of shares equals `init` plus the list sum
of the shares. -/
theorem foldl_share_eq_sum (participants : List Participant) (init : Int) :
    participants.foldl (fun sum p => sum + p.share) init
      = init + (participants.map (fun p => p.share)).sum := by
  induction participants generalizing init with
  | nil => simp
  | cons p rest ih =>
      simp only [List.foldl_cons, List.map_cons, List.sum_cons, ih]
      ring

/-- Summing pointwise-negated values negates the sum. -/
theorem sum_map_neg_of_pointwise {α : Type} (l : List α) (f g : α → Int)
    (h : ∀ x ∈ l, f x = -(g x)) : (l.map f).sum = -((l.map g).sum) := by
  induction l with
  | nil => simp
  | cons a t ih =>
      have ha := h a (List.mem_cons_self a t)
      have ht := ih (fun x hx => h x (List.mem_cons_of_mem a hx))
      simp [ha, ht]
      ring

/-- Collapsing a filtered sum onto a stricter filter: if the summand
vanishes on elements passing `p` but not `q`, and `q` implies `p`, the two
filtered sums agree. -/
theorem sum_filter_shrink {α : Type} (l : List α) (p q : α → Bool)
    (f : α → Int) (hq : ∀ x ∈ l, q x = true → p x = true)
    (hz : ∀ x ∈ l, p x = true → q x = false → f x = 0) :
    ((l.filter p).map f).sum = ((l.filter q).map f).sum := by
  induction l with
  | nil => simp
  | cons a t ih =>
      have hqt : ∀ x ∈ t, q x = true → p x = true :=
        fun x hx => hq x (List.mem_cons_of_mem a hx)
      have hzt : ∀ x ∈ t, p x = true → q x = false → f x = 0 :=
        fun x hx => hz x (List.mem_cons_of_mem a hx)
      have iht := ih hqt hzt
      cases hpa : p a with
      | true =>
          cases hqa : q a with
          | true => simp [List.filter_cons, hpa, hqa, iht]
          | false =>
              have hfa := hz a (List.mem_cons_self a t) hpa hqa
              simp [List.filter_cons, hpa, hqa, iht, hfa]
      | false =>
          have hqa : q a = false := by
            cases hqa : q a with
            | true => exact absurd (hq a (List.mem_cons_self a t) hqa) (by simp [hpa])
            | false => rfl
          simp [List.filter_cons, hpa, hqa, iht]

/-- The expense step of the overall-balance loop adds the owed
contribution to `totalOwed`. -/
theorem applyExpenseOverall_totalOwed (userId : Nat) (st : OverallState)
    (e : Expense) :
    (applyExpenseOverall userId st e).totalOwed
      = st.totalOwed + calculateOwedFromExpense e userId := by
  unfold applyExpenseOverall
  by_cases h : e.payer = userId
  · simp [h]
  · simp only [h, if_false]
    cases hf : findParticipant e userId <;> simp [hf]

/-- The expense step of the overall-balance loop adds the owing
contribution to `totalOwing`. -/
theorem applyExpenseOverall_totalOwing (userId : Nat) (st : OverallState)
    (e : Expense) :
    (applyExpenseOverall userId st e).totalOwing
      = st.totalOwing + calculateOwingFromExpense e userId := by
  unfold applyExpenseOverall
  by_cases h : e.payer = userId
  · simp [h]
  · simp only [h, if_false]
    cases hf : findParticipant e userId <;> simp [hf]

/-- The transaction step subtracts from `totalOwed` the amount of a
received settlement and leaves it alone for a sent one. -/
theorem applyTransactionOverall_totalOwed (userId : Nat) (st : OverallState)
    (t : Transaction) :
    (applyTransactionOverall userId st t).totalOwed
      = st.totalOwed - (if t.tfrom = userId then 0 else t.amount) := by
  unfold applyTransactionOverall
  by_cases h : t.tfrom = userId <;> simp [h]

/-- The transaction step subtracts from `totalOwing` the amount of a sent
settlement and leaves it alone for a received one. -/
theorem applyTransactionOverall_totalOwing (userId : Nat) (st : OverallState)
    (t : Transaction) :
    (applyTransactionOverall userId st t).totalOwing
      = st.totalOwing - (if t.tfrom = userId then t.amount else 0) := by
  unfold applyTransactionOverall
  by_cases h : t.tfrom = userId <;> simp [h]

/-- Folding the expense loop accumulates the sum of owed contributions in
`totalOwed`. -/
theorem foldl_expenses_totalOwed (userId : Nat) (es : List Expense)
    (st : OverallState) :
    (es.foldl (applyExpenseOverall userId) st).totalOwed
      = st.totalOwed
        + (es.map (fun e => calculateOwedFromExpense e userId)).sum := by
  induction es generalizing st with
  | nil => simp
  | cons e rest ih =>
      simp only [List.foldl_cons, List.map_cons, List.sum_cons, ih,
        applyExpenseOverall_totalOwed]
      ring

/-- Folding the expense loop accumulates the sum of owing contributions in
`totalOwing`. -/
theorem foldl_expenses_totalOwing (userId : Nat) (es : List Expense)
    (st : OverallState) :
    (es.foldl (applyExpenseOverall userId) st).totalOwing
      = st.totalOwing
        + (es.map (fun e => calculateOwingFromExpense e userId)).sum := by
  induction es generalizing st with
  | nil => simp
  | cons e rest ih =>
      simp only [List.foldl_cons, List.map_cons, List.sum_cons, ih,
        applyExpenseOverall_totalOwing]
      ring

/-- Folding the transaction loop subtracts the received amounts from
`totalOwed`. -/
theorem foldl_transactions_totalOwed (userId : Nat) (ts : List Transaction)
    (st : OverallState) :
    (ts.foldl (applyTransactionOverall userId) st).totalOwed
      = st.totalOwed
        - (ts.map (fun t => if t.tfrom = userId then 0 else t.amount)).sum := by
  induction ts generalizing st with
  | nil => simp
  | cons t rest ih =>
      simp only [List.foldl_cons, List.map_cons, List.sum_cons, ih,
        applyTransactionOverall_totalOwed]
      ring

/-- Folding the transaction loop subtracts the sent amounts from
`totalOwing`. -/
theorem foldl_transactions_totalOwing (userId : Nat) (ts : List Transaction)
    (st : OverallState) :
    (ts.foldl (applyTransactionOverall userId) st).totalOwing
      = st.totalOwing
        - (ts.map (fun t => if t.tfrom = userId then t.amount else 0)).sum := by
  induction ts generalizing st with
  | nil => simp
  | cons t rest ih =>
      simp only [List.foldl_cons, List.map_cons, List.sum_cons, ih,
        applyTransactionOverall_totalOwing]
      ring

/-- `totalOwed` of the overall balance, as the expense-loop sum minus the
transaction-loop sum. -/
theorem overall_totalOwed_eq (records : RecordSet) (u : Nat) :
    (calculateOverallBalance records u).totalOwed
      = ((getExpensesInvolvingUser records.expenses u).map
          (fun e => calculateOwedFromExpense e u)).sum
        - ((getTransactionsInvolving records.transactions u).map
          (fun t => if t.tfrom = u then 0 else t.amount)).sum := by
  simp only [calculateOverallBalance]
  rw [foldl_transactions_totalOwed, foldl_expenses_totalOwed]
  simp

/-- `totalOwing` of the overall balance, as the expense-loop sum minus the
transaction-loop sum. -/
theorem overall_totalOwing_eq (records : RecordSet) (u : Nat) :
    (calculateOverallBalance records u).totalOwing
      = ((getExpensesInvolvingUser records.expenses u).map
          (fun e => calculateOwingFromExpense e u)).sum
        - ((getTransactionsInvolving records.transactions u).map
          (fun t => if t.tfrom = u then t.amount else 0)).sum := by
  simp only [calculateOverallBalance]
  rw [foldl_transactions_totalOwing, foldl_expenses_totalOwing]
  simp

/-- A user that no participant entry mentions has no find result. -/
theorem findParticipant_eq_none (e : Expense) (u : Nat)
    (h : isParticipant e u = false) : findParticipant e u = none := by
  simp only [isParticipant, List.any_eq_false] at h
  simp only [findParticipant, List.find?_eq_none]
  exact h

/-- The owed expense sum collapses onto the non-deleted expenses paid by
the user, each contributing its amount minus the user's own share. -/
theorem owed_sum_bridge (es : List Expense) (u : Nat) :
    ((getExpensesInvolvingUser es u).map
        (fun e => calculateOwedFromExpense e u)).sum
      = ((es.filter (fun e => !e.isDeleted && e.payer == u)).map
          (fun e => e.amount - shareOf e u)).sum := by
  unfold getExpensesInvolvingUser
  rw [sum_filter_shrink es
    (fun e => !e.isDeleted && (e.payer == u || isParticipant e u))
    (fun e => !e.isDeleted && e.payer == u)
    (fun e => calculateOwedFromExpense e u)
    (by
      intro e _ hq
      simp only [Bool.and_eq_true, Bool.or_eq_true] at hq ⊢
      exact ⟨hq.1, Or.inl hq.2⟩)
    (by
      intro e _ hp hq
      simp only [Bool.and_eq_true] at hp
      by_cases hpe : e.payer = u
      · simp [hp.1, hpe] at hq
      · simp [calculateOwedFromExpense, hpe])]
  have hmap : (es.filter (fun e => !e.isDeleted && e.payer == u)).map
        (fun e => calculateOwedFromExpense e u)
      = (es.filter (fun e => !e.isDeleted && e.payer == u)).map
        (fun e => e.amount - shareOf e u) := by
    apply List.map_congr_left
    intro e he
    have hq := (List.mem_filter.mp he).2
    simp only [Bool.and_eq_true, beq_iff_eq] at hq
    simp [calculateOwedFromExpense, hq.2]
  rw [hmap]

/-- The owing expense sum collapses onto the non-deleted expenses where
the user participates without paying, each contributing the user's
share. -/
theorem owing_sum_bridge (es : List Expense) (u : Nat) :
    ((getExpensesInvolvingUser es u).map
        (fun e => calculateOwingFromExpense e u)).sum
      = ((es.filter
          (fun e => !e.isDeleted && (!(e.payer == u) && isParticipant e u))).map
          (fun e => shareOf e u)).sum := by
  unfold getExpensesInvolvingUser
  rw [sum_filter_shrink es
    (fun e => !e.isDeleted && (e.payer == u || isParticipant e u))
    (fun e => !e.isDeleted && (!(e.payer == u) && isParticipant e u))
    (fun e => calculateOwingFromExpense e u)
    (by
      intro e _ hq
      simp only [Bool.and_eq_true, Bool.or_eq_true] at hq ⊢
      exact ⟨hq.1, Or.inr hq.2.2⟩)
    (by
      intro e _ hp hq
      simp only [Bool.and_eq_true] at hp
      by_cases hpe : e.payer = u
      · simp [calculateOwingFromExpense, hpe]
      · by_cases hpart : isParticipant e u
        · simp [hp.1, hpe, hpart] at hq
        · have hnone := findParticipant_eq_none e u
            (Bool.eq_false_iff.mpr hpart)
          simp [calculateOwingFromExpense, hpe, shareOf, hnone])]
  have hmap : (es.filter
        (fun e => !e.isDeleted && (!(e.payer == u) && isParticipant e u))).map
        (fun e => calculateOwingFromExpense e u)
      = (es.filter
        (fun e => !e.isDeleted && (!(e.payer == u) && isParticipant e u))).map
        (fun e => shareOf e u) := by
    apply List.map_congr_left
    intro e he
    have hq := (List.mem_filter.mp he).2
    simp only [Bool.and_eq_true, Bool.not_eq_true', beq_eq_false_iff_ne] at hq
    simp [calculateOwingFromExpense, hq.2.1]
  rw [hmap]

/-- Under the stored invariant that settlements have distinct endpoints,
the received-settlement sum is the sum over settlements whose receiver is
the user. -/
theorem tx_owed_sum_bridge (ts : List Transaction) (u : Nat)
    (hft : ∀ s ∈ ts, s.tfrom ≠ s.tto) :
    ((getTransactionsInvolving ts u).map
        (fun t => if t.tfrom = u then 0 else t.amount)).sum
      = ((ts.filter (fun s => s.tto == u)).map (fun s => s.amount)).sum := by
  unfold getTransactionsInvolving
  rw [sum_filter_shrink ts
    (fun s => s.tfrom == u || s.tto == u)
    (fun s => s.tto == u)
    (fun s => if s.tfrom = u then 0 else s.amount)
    (by
      intro s _ hq
      simp only [Bool.or_eq_true]
      exact Or.inr hq)
    (by
      intro s _ hp hq
      simp only [Bool.or_eq_true, beq_iff_eq] at hp
      rcases hp with hf | ht
      · simp [hf]
      · simp [ht] at hq)]
  apply congrArg
  apply List.map_congr_left
  intro s hs
  have hmem := List.mem_filter.mp hs
  have hto : s.tto = u := by simpa using hmem.2
  have hne := hft s hmem.1
  rw [if_neg (fun hfu => hne (hfu.trans hto.symm))]

/-- The sent-settlement sum is the sum over settlements whose sender is
the user. -/
theorem tx_owing_sum_bridge (ts : List Transaction) (u : Nat) :
    ((getTransactionsInvolving ts u).map
        (fun t => if t.tfrom = u then t.amount else 0)).sum
      = ((ts.filter (fun s => s.tfrom == u)).map (fun s => s.amount)).sum := by
  unfold getTransactionsInvolving
  rw [sum_filter_shrink ts
    (fun s => s.tfrom == u || s.tto == u)
    (fun s => s.tfrom == u)
    (fun s => if s.tfrom = u then s.amount else 0)
    (by
      intro s _ hq
      simp only [Bool.or_eq_true]
      exact Or.inl hq)
    (by
      intro s _ hp hq
      simp only [beq_eq_false_iff_ne] at hq
      simp [hq])]
  apply congrArg
  apply List.map_congr_left
  intro s hs
  have hfrom : s.tfrom = u := by simpa using (List.mem_filter.mp hs).2
  rw [if_pos hfrom]

/-- Swapping the two users negates the per-expense pairwise
contribution. -/
theorem pairwiseFromExpense_neg (expense : Expense) (u v : Nat) (h : u ≠ v) :
    calculatePairwiseBalanceFromExpense expense u v
      = -(calculatePairwiseBalanceFromExpense expense v u) := by
  unfold calculatePairwiseBalanceFromExpense
  by_cases h1 : expense.payer = u
  · have h2 : expense.payer ≠ v := fun hv => h (h1.symm.trans hv)
    rw [if_pos h1, if_neg h2, if_pos h1]
    cases findParticipant expense v <;> simp
  · by_cases h2 : expense.payer = v
    · rw [if_neg h1, if_pos h2, if_pos h2]
      cases findParticipant expense u <;> simp
    · rw [if_neg h1, if_neg h2, if_neg h2, if_neg h1]
      simp

/-- The pairwise expense query is symmetric in the two users. -/
theorem getExpensesBetween_comm (es : List Expense) (u v : Nat) :
    getExpensesBetween es u v = getExpensesBetween es v u := by
  apply List.filter_congr
  intro e _
  rw [Bool.or_comm]

/-- The pairwise transaction query is symmetric in the two users. -/
theorem getTransactionsBetween_comm (ts : List Transaction) (u v : Nat) :
    getTransactionsBetween ts u v = getTransactionsBetween ts v u := by
  apply List.filter_congr
  intro t _
  rw [Bool.or_comm]

/-- Replacing one list element by another on which the fold step agrees
leaves a left fold unchanged. -/
theorem foldl_replace {α β : Type} (f : β → α → β) (l1 l2 : List α)
    (x y : α) (hxy : ∀ st, f st x = f st y) (st : β) :
    (l1 ++ x :: l2).foldl f st = (l1 ++ y :: l2).foldl f st := by
  rw [List.foldl_append, List.foldl_append, List.foldl_cons, List.foldl_cons,
    hxy]

/-- The overall balance only reads an expense's amount, payer,
participants and soft-delete flag: replacing an expense by one agreeing on
those four fields leaves the whole result unchanged. -/
theorem calculateOverallBalance_replace (es1 es2 : List Expense)
    (ts : List Transaction) (u : Nat) (e e' : Expense)
    (ha : e'.amount = e.amount) (hp : e'.payer = e.payer)
    (hpt : e'.participants = e.participants)
    (hd : e'.isDeleted = e.isDeleted) :
    calculateOverallBalance ⟨es1 ++ e' :: es2, ts⟩ u
      = calculateOverallBalance ⟨es1 ++ e :: es2, ts⟩ u := by
  have hstep : ∀ st : OverallState,
      applyExpenseOverall u st e' = applyExpenseOverall u st e := by
    intro st
    simp only [applyExpenseOverall, calculateOwedFromExpense,
      calculateOwingFromExpense, shareOf, findParticipant, ha, hp, hpt]
  have hpredE : (!e'.isDeleted && (e'.payer == u || isParticipant e' u))
      = (!e.isDeleted && (e.payer == u || isParticipant e u)) := by
    simp only [isParticipant, hp, hpt, hd]
  simp only [calculateOverallBalance, getExpensesInvolvingUser,
    List.filter_append, List.filter_cons, hpredE]
  by_cases hP : (!e.isDeleted && (e.payer == u || isParticipant e u)) = true
  · rw [if_pos hP, if_pos hP, foldl_replace _ _ _ _ _ hstep]
  · rw [if_neg hP, if_neg hP]

/-- The pairwise balance likewise only reads amount, payer, participants
and the soft-delete flag of each expense. -/
theorem calculatePairwiseBalance_replace (es1 es2 : List Expense)
    (ts : List Transaction) (u v : Nat) (e e' : Expense)
    (hp : e'.payer = e.payer) (hpt : e'.participants = e.participants)
    (hd : e'.isDeleted = e.isDeleted) :
    calculatePairwiseBalance ⟨es1 ++ e' :: es2, ts⟩ u v
      = calculatePairwiseBalance ⟨es1 ++ e :: es2, ts⟩ u v := by
  have hval : calculatePairwiseBalanceFromExpense e' u v
      = calculatePairwiseBalanceFromExpense e u v := by
    simp only [calculatePairwiseBalanceFromExpense, findParticipant, hp, hpt]
  have hpredE : (!e'.isDeleted &&
        ((e'.payer == u && isParticipant e' v) ||
         (e'.payer == v && isParticipant e' u)))
      = (!e.isDeleted &&
        ((e.payer == u && isParticipant e v) ||
         (e.payer == v && isParticipant e u))) := by
    simp only [isParticipant, hp, hpt, hd]
  simp only [calculatePairwiseBalance, getExpensesBetween,
    List.filter_append, List.filter_cons, hpredE]
  by_cases hP : (!e.isDeleted &&
      ((e.payer == u && isParticipant e v) ||
       (e.payer == v && isParticipant e u))) = true
  · rw [if_pos hP, if_pos hP]
    simp only [List.map_append, List.map_cons, hval]
  · rw [if_neg hP, if_neg hP]

/-! ## Claim theorems -/

/-- C1: over any record set, the pairwise balance of two distinct users
is antisymmetric — swapping the user arguments negates every per-expense
contribution and every settlement contribution, hence the total. -/
theorem pairwise_balance_antisymm (records : RecordSet) (A B : Nat)
    (h : A ≠ B) :
    (calculatePairwiseBalance records A B).balance
      = -((calculatePairwiseBalance records B A).balance) := by
  have hee : getExpensesBetween records.expenses B A
      = getExpensesBetween records.expenses A B :=
    getExpensesBetween_comm _ _ _
  have htt : getTransactionsBetween records.transactions B A
      = getTransactionsBetween records.transactions A B :=
    getTransactionsBetween_comm _ _ _
  have he : ((getExpensesBetween records.expenses A B).map
        (fun e => calculatePairwiseBalanceFromExpense e A B)).sum
      = -(((getExpensesBetween records.expenses A B).map
        (fun e => calculatePairwiseBalanceFromExpense e B A)).sum) :=
    sum_map_neg_of_pointwise _ _ _
      (fun e _ => pairwiseFromExpense_neg e A B h)
  have ht : ((getTransactionsBetween records.transactions A B).map
        (fun t => if t.tfrom = A then t.amount else -t.amount)).sum
      = -(((getTransactionsBetween records.transactions A B).map
        (fun t => if t.tfrom = B then t.amount else -t.amount)).sum) := by
    apply sum_map_neg_of_pointwise
    intro t htmem
    simp only [getTransactionsBetween] at htmem
    have hpred := (List.mem_filter.mp htmem).2
    simp only [Bool.or_eq_true, Bool.and_eq_true, beq_iff_eq] at hpred
    rcases hpred with ⟨hf, _⟩ | ⟨hf, _⟩
    · rw [if_pos hf, if_neg (fun hba => h ((hf.symm.trans hba).symm ▸ rfl)),
        neg_neg]
    · rw [if_neg (fun hba => h (hf.symm.trans hba).symm), if_pos hf]
  simp only [calculatePairwiseBalance, hee, htt]
  rw [he, ht]
  ring

/-- C2: `calculateOverallBalance` returns `totalOwed` as the sum over
non-deleted expenses paid by U of (amount − U's own share) minus the
amounts of settlements received by U; `totalOwing` as the sum of U's
shares in non-deleted expenses of other payers minus the amounts of
settlements sent by U; and `netBalance = totalOwed − totalOwing`.  The
store invariant that settlements have distinct endpoints is assumed.
Consequently appending one settlement from A to B of amount a decreases
A's `totalOwing` by a and B's `totalOwed` by a, all else equal. -/
theorem overall_balance_formulas_and_settlement (records : RecordSet)
    (U A B : Nat) (t : Transaction)
    (hft : ∀ s ∈ records.transactions, s.tfrom ≠ s.tto)
    (hfrom : t.tfrom = A) (hto : t.tto = B) (hAB : A ≠ B) :
    ((calculateOverallBalance records U).totalOwed
        = ((records.expenses.filter
            (fun e => !e.isDeleted && e.payer == U)).map
            (fun e => e.amount - shareOf e U)).sum
          - ((records.transactions.filter (fun s => s.tto == U)).map
            (fun s => s.amount)).sum
      ∧ (calculateOverallBalance records U).totalOwing
          = ((records.expenses.filter
              (fun e => !e.isDeleted && (!(e.payer == U) && isParticipant e U))).map
              (fun e => shareOf e U)).sum
            - ((records.transactions.filter (fun s => s.tfrom == U)).map
              (fun s => s.amount)).sum
      ∧ (calculateOverallBalance records U).netBalance
          = (calculateOverallBalance records U).totalOwed
            - (calculateOverallBalance records U).totalOwing)
    ∧ ((calculateOverallBalance
          { records with transactions := records.transactions ++ [t] } A).totalOwing
        = (calculateOverallBalance records A).totalOwing - t.amount
      ∧ (calculateOverallBalance
          { records with transactions := records.transactions ++ [t] } B).totalOwed
        = (calculateOverallBalance records B).totalOwed - t.amount) := by
  refine ⟨⟨?_, ?_, rfl⟩, ?_, ?_⟩
  · rw [overall_totalOwed_eq, owed_sum_bridge, tx_owed_sum_bridge _ _ hft]
  · rw [overall_totalOwing_eq, owing_sum_bridge, tx_owing_sum_bridge]
  · have happ : getTransactionsInvolving (records.transactions ++ [t]) A
        = getTransactionsInvolving records.transactions A ++ [t] := by
      unfold getTransactionsInvolving
      rw [List.filter_append]
      simp [hfrom]
    rw [overall_totalOwing_eq, overall_totalOwing_eq]
    simp only [happ, List.map_append, List.sum_append, List.map_cons,
      List.map_nil, List.sum_cons, List.sum_nil, hfrom, if_pos]
    ring
  · have happ : getTransactionsInvolving (records.transactions ++ [t]) B
        = getTransactionsInvolving records.transactions B ++ [t] := by
      unfold getTransactionsInvolving
      rw [List.filter_append]
      simp [hto]
    rw [overall_totalOwed_eq, overall_totalOwed_eq]
    have hifneg : (if t.tfrom = B then (0 : Int) else t.amount) = t.amount := by
      rw [if_neg (fun hb => hAB (hfrom.symm.trans hb))]
    simp only [happ, List.map_append, List.sum_append, List.map_cons,
      List.map_nil, List.sum_cons, List.sum_nil, hifneg]
    ring

/-- Witness for `overall_balance_formulas_and_settlement`: the worked
scenario, user 0's aggregate view, appending Bob's settlement of 100
paise. -/
theorem overall_balance_formulas_and_settlement_witness :
    ((∀ s ∈ sampleRecords.transactions, s.tfrom ≠ s.tto)
      ∧ sampleSettlement.tfrom = 1 ∧ sampleSettlement.tto = 0
      ∧ (1 : Nat) ≠ 0)
    ∧ (((calculateOverallBalance sampleRecords 0).totalOwed
          = ((sampleRecords.expenses.filter
              (fun e => !e.isDeleted && e.payer == 0)).map
              (fun e => e.amount - shareOf e 0)).sum
            - ((sampleRecords.transactions.filter (fun s => s.tto == 0)).map
              (fun s => s.amount)).sum
        ∧ (calculateOverallBalance sampleRecords 0).totalOwing
            = ((sampleRecords.expenses.filter
                (fun e => !e.isDeleted && (!(e.payer == 0) && isParticipant e 0))).map
                (fun e => shareOf e 0)).sum
              - ((sampleRecords.transactions.filter (fun s => s.tfrom == 0)).map
                (fun s => s.amount)).sum
        ∧ (calculateOverallBalance sampleRecords 0).netBalance
            = (calculateOverallBalance sampleRecords 0).totalOwed
              - (calculateOverallBalance sampleRecords 0).totalOwing)
      ∧ ((calculateOverallBalance
            { sampleRecords with
              transactions := sampleRecords.transactions ++ [sampleSettlement] }
            1).totalOwing
          = (calculateOverallBalance sampleRecords 1).totalOwing
            - sampleSettlement.amount
        ∧ (calculateOverallBalance
            { sampleRecords with
              transactions := sampleRecords.transactions ++ [sampleSettlement] }
            0).totalOwed
          = (calculateOverallBalance sampleRecords 0).totalOwed
            - sampleSettlement.amount)) :=
  ⟨⟨by decide, by decide, by decide, by decide⟩,
    overall_balance_formulas_and_settlement sampleRecords 0 1 0
      sampleSettlement (by decide) (by decide) (by decide) (by decide)⟩

/-- Witness for `pairwise_balance_antisymm`: the worked scenario with
users 0 and 1. -/
theorem pairwise_balance_antisymm_witness :
    ((0 : Nat) ≠ 1)
    ∧ (calculatePairwiseBalance sampleRecords 0 1).balance
        = -((calculatePairwiseBalance sampleRecords 1 0).balance) :=
  ⟨by decide, pairwise_balance_antisymm sampleRecords 0 1 (by decide)⟩

/-- C4: when U is the payer of an expense, the expense contributes the
total amount minus U's own share to U's owed total — the share being 0
when U is not listed among the participants — and contributes exactly 0
to U's owing total, so a payer who is also a participant is counted only
through the payer branch and never double counted. -/
theorem payer_branch_contribution (expense : Expense) (userId : Nat)
    (h : expense.payer = userId) :
    calculateOwedFromExpense expense userId
        = expense.amount - shareOf expense userId
      ∧ (findParticipant expense userId = none → shareOf expense userId = 0)
      ∧ calculateOwingFromExpense expense userId = 0 := by
  refine ⟨?_, ?_, ?_⟩
  · simp [calculateOwedFromExpense, h]
  · intro hn
    simp [shareOf, hn]
  · simp [calculateOwingFromExpense, h]

/-- Witness for `payer_branch_contribution`: the sample expense, whose
payer 0 is also a participant with share 100. -/
theorem payer_branch_contribution_witness :
    sampleExpense.payer = 0
    ∧ (calculateOwedFromExpense sampleExpense 0
          = sampleExpense.amount - shareOf sampleExpense 0
        ∧ (findParticipant sampleExpense 0 = none → shareOf sampleExpense 0 = 0)
        ∧ calculateOwingFromExpense sampleExpense 0 = 0) :=
  ⟨by decide, payer_branch_contribution sampleExpense 0 (by decide)⟩

/-- C5: the per-expense pairwise contribution of an expense to the balance
of U relative to V is +V's share when U paid, −U's share when V (and not
U) paid, and 0 when neither paid; `shareOf` is 0 when the counterparty is
not listed among the participants, so a missing counterparty contributes 0
rather than raising an error. -/
theorem pairwise_contribution_cases (expense : Expense) (u v : Nat) :
    calculatePairwiseBalanceFromExpense expense u v
      = if expense.payer = u then shareOf expense v
        else if expense.payer = v then -(shareOf expense u)
        else 0 := by
  by_cases h1 : expense.payer = u
  · simp [calculatePairwiseBalanceFromExpense, shareOf, h1]
  · by_cases h2 : expense.payer = v
    · have hvu : v ≠ u := fun hvu => h1 (hvu ▸ h2)
      simp only [calculatePairwiseBalanceFromExpense, shareOf, h1, h2,
        if_neg h1, if_neg hvu, if_pos rfl]
      cases findParticipant expense u <;> simp
    · simp [calculatePairwiseBalanceFromExpense, h1, h2]

/-- C6: share-sum validation fails exactly when the absolute difference
between the sum of the participant shares and the total amount exceeds 1
paise, and the result reports the computed sum and that difference; hence
shares summing to total ± 1 validate and total ± 2 fail. -/
theorem validateSharesSum_boundary (totalAmount : Int)
    (participants : List Participant) :
    ((validateSharesSum totalAmount participants).valid = false
        ↔ 1 < |(participants.map (fun p => p.share)).sum - totalAmount|)
      ∧ (validateSharesSum totalAmount participants).totalShares
          = (participants.map (fun p => p.share)).sum
      ∧ (validateSharesSum totalAmount participants).difference
          = |(participants.map (fun p => p.share)).sum - totalAmount| := by
  have h0 : participants.foldl (fun sum p => sum + p.share) 0
      = (participants.map (fun p => p.share)).sum := by
    simpa using foldl_share_eq_sum participants 0
  by_cases hd : 1 < |(participants.map (fun p => p.share)).sum - totalAmount|
  · simp [validateSharesSum, h0, hd]
  · simp [validateSharesSum, h0, hd]

/-- C7: expense-creation validation runs every check on every input,
collects one error per failed check — so each rule's error is present in
the returned list exactly when that rule failed, not only for the first
failure — and returns `valid` exactly when the collected list is empty. -/
theorem validateExpenseCreation_collects (users : List Nat) (amount : Int)
    (payer : Nat) (participants : List Participant) :
    ((validateExpenseCreation users amount payer participants).valid = true
        ↔ (validateExpenseCreation users amount payer participants).errors = [])
      ∧ ((validateExpenseCreation users amount payer participants).valid = true
          ↔ (validatePayerExists users payer = true
              ∧ validateNoDuplicateParticipants participants = true
              ∧ validateParticipantsExist users participants = true
              ∧ validatePositiveShares participants = true
              ∧ (validateSharesSum amount participants).valid = true))
      ∧ (FieldError.mk "payer" "PayerNotFound"
            ∈ (validateExpenseCreation users amount payer participants).errors
          ↔ validatePayerExists users payer = false)
      ∧ (FieldError.mk "participants" "DuplicateParticipant"
            ∈ (validateExpenseCreation users amount payer participants).errors
          ↔ validateNoDuplicateParticipants participants = false)
      ∧ (FieldError.mk "participants" "ParticipantNotFound"
            ∈ (validateExpenseCreation users amount payer participants).errors
          ↔ validateParticipantsExist users participants = false)
      ∧ (FieldError.mk "participants" "NegativeShare"
            ∈ (validateExpenseCreation users amount payer participants).errors
          ↔ validatePositiveShares participants = false)
      ∧ (FieldError.mk "amount" "ShareSumMismatch"
            ∈ (validateExpenseCreation users amount payer participants).errors
          ↔ (validateSharesSum amount participants).valid = false)
      ∧ (validateExpenseCreation users amount payer participants).errors.length
          = ((if validatePayerExists users payer then 0 else 1)
            + (if validateNoDuplicateParticipants participants then 0 else 1)
            + (if validateParticipantsExist users participants then 0 else 1)
            + (if validatePositiveShares participants then 0 else 1)
            + (if (validateSharesSum amount participants).valid then 0 else 1)) := by
  cases h1 : validatePayerExists users payer <;>
    cases h2 : validateNoDuplicateParticipants participants <;>
      cases h3 : validateParticipantsExist users participants <;>
        cases h4 : validatePositiveShares participants <;>
          cases h5 : (validateSharesSum amount participants).valid <;>
            simp [validateExpenseCreation, h1, h2, h3, h4, h5, FieldError.mk.injEq]

/-- C8: settlement creation rejects amount 0 (nothing stored) and accepts
amount 1 paise between existing distinct users; the validator rejects
equal endpoints for any amount; and any transaction the creation path
stores satisfies from ≠ to and amount ≥ 1 paise. -/
theorem createTransaction_boundary (users : List Nat) (tfrom tto : Nat)
    (h1 : tfrom ∈ users) (h2 : tto ∈ users) (h3 : tfrom ≠ tto) :
    createTransaction users tfrom tto 0 = none
    ∧ createTransaction users tfrom tto 1
        = some { tfrom := tfrom, tto := tto, amount := 1 }
    ∧ (∀ a : Int, (validateTransactionCreation users tfrom tfrom a).valid = false)
    ∧ (∀ u v : Nat, ∀ a : Int, ∀ t : Transaction,
        createTransaction users u v a = some t
          → t.tfrom ≠ t.tto ∧ 1 ≤ t.amount) := by
  have hc1 : users.contains tfrom = true := by simpa using h1
  have hc2 : users.contains tto = true := by simpa using h2
  refine ⟨?_, ?_, ?_, ?_⟩
  · simp [createTransaction, validateTransactionCreation,
      validateDifferentUsers, validatePositiveAmount, validateUsersExist,
      hc1, hc2, h3]
  · simp only [createTransaction, validateTransactionCreation,
      validateDifferentUsers, validatePositiveAmount, validateUsersExist,
      transactionSchemaValid, hc1, hc2, h3]
    simp [h3]
  · intro a
    simp [validateTransactionCreation, validateDifferentUsers]
  · intro u v a t hsome
    simp only [createTransaction] at hsome
    split at hsome
    · exact absurd hsome (by simp)
    · split at hsome
      · rename_i hs
        cases hsome
        simp only [transactionSchemaValid, Bool.and_eq_true,
          decide_eq_true_eq] at hs
        exact ⟨hs.2, hs.1⟩
      · exact absurd hsome (by simp)

/-- Witness for `createTransaction_boundary`: users 0 and 1, both in the
directory. -/
theorem createTransaction_boundary_witness :
    ((0 : Nat) ∈ [0, 1] ∧ (1 : Nat) ∈ [0, 1] ∧ (0 : Nat) ≠ 1)
    ∧ (createTransaction [0, 1] 0 1 0 = none
      ∧ createTransaction [0, 1] 0 1 1
          = some { tfrom := 0, tto := 1, amount := 1 }
      ∧ (∀ a : Int, (validateTransactionCreation [0, 1] 0 0 a).valid = false)
      ∧ (∀ u v : Nat, ∀ a : Int, ∀ t : Transaction,
          createTransaction [0, 1] u v a = some t
            → t.tfrom ≠ t.tto ∧ 1 ≤ t.amount)) :=
  ⟨⟨by decide, by decide, by decide⟩,
    createTransaction_boundary [0, 1] 0 1 (by decide) (by decide) (by decide)⟩

/-- C10: with an existing payer and an empty participants array the
duplicate, existence and negative-share checks pass vacuously, so the
validator's verdict reduces to the share-sum tolerance — valid exactly
when the (non-negative) total amount is at most 1 paise — while the
at-least-one-participant rule lives only in the storage schema, which
rejects the empty array. -/
theorem validateExpenseCreation_empty_participants (users : List Nat)
    (amount : Int) (payer : Nat) (hp : payer ∈ users) (ha : 0 ≤ amount) :
    ((validateExpenseCreation users amount payer []).valid = true
        ↔ amount ≤ 1)
    ∧ expenseSchemaParticipantsValid [] = false := by
  have hc : users.contains payer = true := by simpa using hp
  constructor
  · by_cases hd : (1 : Int) < amount
    · simp [validateExpenseCreation, validatePayerExists,
        validateNoDuplicateParticipants, validateParticipantsExist,
        invalidParticipantIds, validatePositiveShares, validateSharesSum,
        hc, hp, zero_sub, abs_neg, abs_of_nonneg ha, hd]
    · simp [validateExpenseCreation, validatePayerExists,
        validateNoDuplicateParticipants, validateParticipantsExist,
        invalidParticipantIds, validatePositiveShares, validateSharesSum,
        hc, hp, zero_sub, abs_neg, abs_of_nonneg ha, hd]
      omega
  · rfl

/-- Witness for `validateExpenseCreation_empty_participants`: payer 0 in
the directory, total amount 1 paise. -/
theorem validateExpenseCreation_empty_participants_witness :
    ((0 : Nat) ∈ [0] ∧ (0 : Int) ≤ 1)
    ∧ (((validateExpenseCreation [0] 1 0 []).valid = true ↔ (1 : Int) ≤ 1)
      ∧ expenseSchemaParticipantsValid [] = false) :=
  ⟨⟨by decide, by decide⟩,
    validateExpenseCreation_empty_participants [0] 1 0 (by decide) (by decide)⟩

/-- C3: soft-deleting an expense makes the aggregate and pairwise
balances exactly equal to the values computed with that expense removed
from the record set (both computations select only expenses with
`isDeleted = false`), and restoring it returns every balance to its
pre-delete value. -/
theorem soft_delete_exclusion (es1 es2 : List Expense) (ts : List Transaction)
    (e : Expense) (u v who stamp : Nat) (reason : Option String)
    (he : e.isDeleted = false) :
    (calculateOverallBalance
        ⟨es1 ++ deleteExpense e who stamp reason :: es2, ts⟩ u
      = calculateOverallBalance ⟨es1 ++ es2, ts⟩ u)
    ∧ (calculatePairwiseBalance
        ⟨es1 ++ deleteExpense e who stamp reason :: es2, ts⟩ u v
      = calculatePairwiseBalance ⟨es1 ++ es2, ts⟩ u v)
    ∧ (calculateOverallBalance
        ⟨es1 ++ restoreExpense (deleteExpense e who stamp reason) :: es2, ts⟩ u
      = calculateOverallBalance ⟨es1 ++ e :: es2, ts⟩ u)
    ∧ (calculatePairwiseBalance
        ⟨es1 ++ restoreExpense (deleteExpense e who stamp reason) :: es2, ts⟩ u v
      = calculatePairwiseBalance ⟨es1 ++ e :: es2, ts⟩ u v) := by
  refine ⟨?_, ?_, ?_, ?_⟩
  · have hdel : getExpensesInvolvingUser
        (es1 ++ deleteExpense e who stamp reason :: es2) u
        = getExpensesInvolvingUser (es1 ++ es2) u := by
      unfold getExpensesInvolvingUser deleteExpense
      rw [List.filter_append, List.filter_append, List.filter_cons]
      simp
    simp only [calculateOverallBalance, hdel]
  · have hdel : getExpensesBetween
        (es1 ++ deleteExpense e who stamp reason :: es2) u v
        = getExpensesBetween (es1 ++ es2) u v := by
      unfold getExpensesBetween deleteExpense
      rw [List.filter_append, List.filter_append, List.filter_cons]
      simp
    simp only [calculatePairwiseBalance, hdel]
  · exact calculateOverallBalance_replace es1 es2 ts u e
      (restoreExpense (deleteExpense e who stamp reason)) rfl rfl rfl
      (by simp [restoreExpense, deleteExpense, he])
  · exact calculatePairwiseBalance_replace es1 es2 ts u v e
      (restoreExpense (deleteExpense e who stamp reason)) rfl rfl
      (by simp [restoreExpense, deleteExpense, he])

/-- Witness for `soft_delete_exclusion`: deleting and restoring the sample
expense inside the worked scenario. -/
theorem soft_delete_exclusion_witness :
    sampleExpense.isDeleted = false
    ∧ ((calculateOverallBalance
          ⟨[] ++ deleteExpense sampleExpense 0 7 none :: [], [sampleSettlement]⟩ 0
        = calculateOverallBalance ⟨[] ++ [], [sampleSettlement]⟩ 0)
      ∧ (calculatePairwiseBalance
          ⟨[] ++ deleteExpense sampleExpense 0 7 none :: [], [sampleSettlement]⟩ 0 1
        = calculatePairwiseBalance ⟨[] ++ [], [sampleSettlement]⟩ 0 1)
      ∧ (calculateOverallBalance
          ⟨[] ++ restoreExpense (deleteExpense sampleExpense 0 7 none) :: [],
            [sampleSettlement]⟩ 0
        = calculateOverallBalance ⟨[] ++ sampleExpense :: [], [sampleSettlement]⟩ 0)
      ∧ (calculatePairwiseBalance
          ⟨[] ++ restoreExpense (deleteExpense sampleExpense 0 7 none) :: [],
            [sampleSettlement]⟩ 0 1
        = calculatePairwiseBalance ⟨[] ++ sampleExpense :: [], [sampleSettlement]⟩ 0 1)) :=
  ⟨by decide,
    soft_delete_exclusion [] [] [sampleSettlement] sampleExpense 0 1 0 7 none
      (by decide)⟩

/-- `mapAdd` changes the sum of the map's balances by exactly the added
delta. -/
theorem mapAdd_sum (m : List (Nat × Int)) (k : Nat) (d : Int) :
    ((mapAdd m k d).map (fun x => x.2)).sum
      = (m.map (fun x => x.2)).sum + d := by
  induction m with
  | nil => simp [mapAdd]
  | cons kv rest ih =>
      obtain ⟨k', v⟩ := kv
      by_cases h : k' = k
      · simp [mapAdd, h]
        ring
      · simp [mapAdd, h, ih]
        ring

/-- The payer branch's inner fold adds the shares of all non-self
participant entries to the map's balance sum. -/
theorem participants_foldl_map_sum (ps : List Participant) (u : Nat)
    (m0 : List (Nat × Int)) :
    (((ps.foldl
        (fun m p => if p.user = u then m else mapAdd m p.user p.share) m0)).map
        (fun x => x.2)).sum
      = (m0.map (fun x => x.2)).sum
        + ((ps.filter (fun p => !(p.user == u))).map (fun p => p.share)).sum := by
  induction ps generalizing m0 with
  | nil => simp
  | cons p rest ih =>
      by_cases h : p.user = u
      · simp [List.foldl_cons, List.filter_cons, h, ih]
      · simp [List.foldl_cons, List.filter_cons, h, ih, mapAdd_sum]
        ring

/-- When a user appears at most once among the participants, dropping
that user's entries from the share sum subtracts exactly the first found
share. -/
theorem filter_ne_share_sum (ps : List Participant) (u : Nat)
    (hcount : ps.countP (fun p => p.user == u) ≤ 1) :
    ((ps.filter (fun p => !(p.user == u))).map (fun p => p.share)).sum
      = (ps.map (fun p => p.share)).sum
        - (match ps.find? (fun p => p.user == u) with
           | some p => p.share
           | none => 0) := by
  induction ps with
  | nil => simp
  | cons p rest ih =>
      by_cases h : p.user = u
      · have hpe : (p.user == u) = true := by simp [h]
        rw [List.countP_cons] at hcount
        rw [hpe, if_pos rfl] at hcount
        have hrest : rest.countP (fun p => p.user == u) = 0 := by omega
        have hall : ∀ x ∈ rest, ¬((fun p => p.user == u) x = true) :=
          List.countP_eq_zero.mp hrest
        have hfilter : rest.filter (fun p => !(p.user == u)) = rest := by
          apply List.filter_eq_self.mpr
          intro x hx
          simpa using hall x hx
        simp [List.filter_cons, List.find?_cons, h, hfilter]
      · have hcount' : rest.countP (fun p => p.user == u) ≤ 1 := by
          rw [List.countP_cons] at hcount
          omega
        simp [List.filter_cons, List.find?_cons, h, ih hcount']
        cases rest.find? (fun p => p.user == u) <;> simp
        ring

/-- The expense step preserves the invariant that the map's balance sum
equals `totalOwed − totalOwing`, provided the expense's shares sum to its
amount and the user appears at most once among its participants. -/
theorem applyExpenseOverall_inv (u : Nat) (st : OverallState) (e : Expense)
    (hsum : (e.participants.map (fun p => p.share)).sum = e.amount)
    (hcount : e.participants.countP (fun p => p.user == u) ≤ 1)
    (hinv : (st.perUserMap.map (fun x => x.2)).sum
      = st.totalOwed - st.totalOwing) :
    ((applyExpenseOverall u st e).perUserMap.map (fun x => x.2)).sum
      = (applyExpenseOverall u st e).totalOwed
        - (applyExpenseOverall u st e).totalOwing := by
  unfold applyExpenseOverall
  by_cases h : e.payer = u
  · rw [if_pos h]
    dsimp only
    rw [participants_foldl_map_sum, filter_ne_share_sum _ _ hcount, hsum]
    have howed : calculateOwedFromExpense e u = e.amount - shareOf e u := by
      simp [calculateOwedFromExpense, h]
    have howing : calculateOwingFromExpense e u = 0 := by
      simp [calculateOwingFromExpense, h]
    have hshare : (match e.participants.find? (fun p => p.user == u) with
        | some p => p.share
        | none => 0) = shareOf e u := rfl
    rw [howed, howing, hshare, hinv]
    ring
  · rw [if_neg h]
    have howed : calculateOwedFromExpense e u = 0 := by
      simp [calculateOwedFromExpense, h]
    cases hf : findParticipant e u with
    | some p =>
        dsimp only
        rw [mapAdd_sum]
        have howing : calculateOwingFromExpense e u = p.share := by
          simp [calculateOwingFromExpense, shareOf, h, hf]
        rw [howed, howing, hinv]
        ring
    | none =>
        dsimp only
        have howing : calculateOwingFromExpense e u = 0 := by
          simp [calculateOwingFromExpense, shareOf, h, hf]
        rw [howed, howing, hinv]
        ring

/-- The transaction step preserves the same invariant. -/
theorem applyTransactionOverall_inv (u : Nat) (st : OverallState)
    (t : Transaction)
    (hinv : (st.perUserMap.map (fun x => x.2)).sum
      = st.totalOwed - st.totalOwing) :
    ((applyTransactionOverall u st t).perUserMap.map (fun x => x.2)).sum
      = (applyTransactionOverall u st t).totalOwed
        - (applyTransactionOverall u st t).totalOwing := by
  unfold applyTransactionOverall
  by_cases h : t.tfrom = u
  · simp [h, mapAdd_sum, hinv]
    ring
  · simp [h, mapAdd_sum, hinv]
    ring

/-- Folding the expense loop preserves the invariant when every expense in
the list satisfies the two per-expense conditions. -/
theorem foldl_expenses_inv (u : Nat) (es : List Expense) (st : OverallState)
    (hes : ∀ e ∈ es, (e.participants.map (fun p => p.share)).sum = e.amount
        ∧ e.participants.countP (fun p => p.user == u) ≤ 1)
    (hinv : (st.perUserMap.map (fun x => x.2)).sum
      = st.totalOwed - st.totalOwing) :
    (((es.foldl (applyExpenseOverall u) st)).perUserMap.map
        (fun x => x.2)).sum
      = (es.foldl (applyExpenseOverall u) st).totalOwed
        - (es.foldl (applyExpenseOverall u) st).totalOwing := by
  induction es generalizing st with
  | nil => simpa using hinv
  | cons e rest ih =>
      simp only [List.foldl_cons]
      apply ih _ (fun x hx => hes x (List.mem_cons_of_mem e hx))
      exact applyExpenseOverall_inv u st e
        (hes e (List.mem_cons_self e rest)).1
        (hes e (List.mem_cons_self e rest)).2 hinv

/-- Folding the transaction loop preserves the invariant
unconditionally. -/
theorem foldl_transactions_inv (u : Nat) (ts : List Transaction)
    (st : OverallState)
    (hinv : (st.perUserMap.map (fun x => x.2)).sum
      = st.totalOwed - st.totalOwing) :
    (((ts.foldl (applyTransactionOverall u) st)).perUserMap.map
        (fun x => x.2)).sum
      = (ts.foldl (applyTransactionOverall u) st).totalOwed
        - (ts.foldl (applyTransactionOverall u) st).totalOwing := by
  induction ts generalizing st with
  | nil => simpa using hinv
  | cons t rest ih =>
      simp only [List.foldl_cons]
      exact ih _ (applyTransactionOverall_inv u st t hinv)

/-- An expense of 100 paise paid by user 0 whose participants list user 0
twice with share 50 each; its shares sum exactly to its amount. -/
def dupExpense : Expense :=
  { amount := 100, payer := 0, participants := [⟨0, 50⟩, ⟨0, 50⟩],
    isDeleted := false, deletedBy := none, deletedAt := none,
    deletedReason := none }

/-- A record set holding only `dupExpense`. -/
def dupParticipantRecords : RecordSet :=
  { expenses := [dupExpense], transactions := [] }

/-- C9 counterexample: zero rounding slack alone does not make the
per-user map sum equal `netBalance` — with the payer duplicated among the
participants, every slot is skipped as "self" while `totalOwed` subtracts
only the first share, so the map sums to 0 against a net balance of 50. -/
theorem perUser_sum_counterexample :
    (∀ e ∈ dupParticipantRecords.expenses, e.isDeleted = false →
        (e.participants.map (fun p => p.share)).sum = e.amount)
    ∧ ((calculateOverallBalance dupParticipantRecords 0).perUserMapAll.map
        (fun x => x.2)).sum
      ≠ (calculateOverallBalance dupParticipantRecords 0).netBalance := by
  constructor
  · decide
  · decide

/-- C9 (amended): if every non-deleted expense's shares sum exactly to its
amount and no non-deleted expense lists user U more than once among its
participants (the write-time validator guarantees the latter for stored
records), then the per-counterparty balances accumulated in the per-user
map — before zero entries are filtered out — sum to
`netBalance = totalOwed − totalOwing`. -/
theorem perUser_sum_eq_net (records : RecordSet) (U : Nat)
    (hsum : ∀ e ∈ records.expenses, e.isDeleted = false →
        (e.participants.map (fun p => p.share)).sum = e.amount)
    (hcount : ∀ e ∈ records.expenses, e.isDeleted = false →
        e.participants.countP (fun p => p.user == U) ≤ 1) :
    ((calculateOverallBalance records U).perUserMapAll.map
        (fun x => x.2)).sum
      = (calculateOverallBalance records U).netBalance := by
  simp only [calculateOverallBalance]
  apply foldl_transactions_inv
  apply foldl_expenses_inv
  · intro e he
    have hmem := List.mem_filter.mp he
    have hdel : e.isDeleted = false := by
      have h2 := hmem.2
      simp only [Bool.and_eq_true, Bool.not_eq_true'] at h2
      exact h2.1
    exact ⟨hsum e hmem.1 hdel, hcount e hmem.1 hdel⟩
  · simp

/-- Witness for `perUser_sum_eq_net`: the worked scenario, user 0. -/
theorem perUser_sum_eq_net_witness :
    ((∀ e ∈ sampleRecords.expenses, e.isDeleted = false →
        (e.participants.map (fun p => p.share)).sum = e.amount)
      ∧ (∀ e ∈ sampleRecords.expenses, e.isDeleted = false →
        e.participants.countP (fun p => p.user == 0) ≤ 1))
    ∧ ((calculateOverallBalance sampleRecords 0).perUserMapAll.map
        (fun x => x.2)).sum
      = (calculateOverallBalance sampleRecords 0).netBalance :=
  ⟨⟨by decide, by decide⟩,
    perUser_sum_eq_net sampleRecords 0 (by decide) (by decide)⟩

end UdhariKitap
